import Mathlib

/-!
Shallow embedding of `DumpProcessing.py` (class `PoEDataImporter`) from the
PoEPricePredictor repository, together with theorems settling the frozen
claims about its specification.

Modelling conventions:
* pandas timestamps and timedeltas are modelled as `Int` (the `Date` column of
  a raw dump row is carried already parsed, as `pd.read_csv` + `pd.to_datetime`
  would leave it);
* float values are modelled as `Rat`;
* a pandas `NaN` cell is `Option.none` (the missing-value sentinel);
* python exceptions (`KeyError`, `IndexError`, `ValueError`, parse failures in
  `pd.to_datetime`) are modelled as `Except String`;
* a dataframe with a (elapsed-time) row axis and a (currency, league) column
  axis is a `Table`: explicit ordered key lists plus a cell lookup function.
-/

deriving instance DecidableEq for Except

namespace PoE

/-- The fixed base currency of the pipeline (`df["Pay"] == "Chaos Orb"`). -/
def baseCurrency : String := "Chaos Orb"

/-- One row of a raw dump file, as left by `pd.read_csv(file, sep=";")` after
`pd.to_datetime` on the `Date` column: columns `League`, `Date`, `Get`, `Pay`,
`Value` (the `Get` column is the currency obtained, `Pay` the currency paid). -/
structure RawRow where
  league : String
  date : Int
  get : String
  pay : String
  value : Rat
deriving DecidableEq

/-- One row of the dataframe returned by `extract_df`: columns
`League`, `Date` (now an elapsed-time delta), `Currency` (renamed from `Get`),
`Value`. -/
structure ExtractedRow where
  league : String
  elapsed : Int
  currency : String
  value : Rat
deriving DecidableEq

/-- `extract_df` (DumpProcessing.py lines 55-70): renames `Get` to `Currency`,
filters to rows with `Pay == "Chaos Orb"`, keeps columns
`League, Date, Currency, Value`, and replaces `Date` by
`Date - df.loc[0]["Date"]`.  The anchor `df.loc[0]` is a lookup of the original
row label `0` in the already-filtered frame: it succeeds exactly when the
file's first row survived the base-currency filter, and raises a `KeyError`
otherwise (in particular on an empty file). -/
def extract_df (rows : List RawRow) : Except String (List ExtractedRow) :=
  match rows with
  | [] => .error "KeyError: 0"
  | r0 :: _ =>
    if r0.pay = baseCurrency then
      .ok ((rows.filter fun r => r.pay == baseCurrency).map
        fun r => { league := r.league, elapsed := r.date - r0.date,
                   currency := r.get, value := r.value })
    else .error "KeyError: 0"

/-- Whether an `Except` computation succeeded. -/
def isOkE {ε α : Type} : Except ε α → Bool
  | .ok _ => true
  | .error _ => false

/-- A pivoted league dataframe: the row axis is elapsed time (the transposed
frame's row index, its constant outer "Value" level omitted), the column axis
is `(Currency, League)` pairs, and `cell` looks a value up (`none` = `NaN`). -/
structure Table where
  rowKeys : List Int
  colKeys : List (String × String)
  cell : Int → String × String → Option Rat

/-- Lexicographic order on `(Currency, League)` column keys, as used by
`df.sort_index(axis=1)` and by the sorted group keys of `groupby`. -/
def colLe (a b : String × String) : Prop :=
  a.1 < b.1 ∨ (a.1 = b.1 ∧ a.2 ≤ b.2)

instance : DecidableRel colLe := fun a b => by
  unfold colLe
  infer_instance

instance : IsTotal (String × String) colLe := by
  constructor
  intro a b
  rcases lt_trichotomy a.1 b.1 with h | h | h
  · exact Or.inl (Or.inl h)
  · rcases le_total a.2 b.2 with h2 | h2
    · exact Or.inl (Or.inr ⟨h, h2⟩)
    · exact Or.inr (Or.inr ⟨h.symm, h2⟩)
  · exact Or.inr (Or.inl h)

instance : IsTrans (String × String) colLe := by
  constructor
  intro a b c hab hbc
  rcases hab with h1 | ⟨e1, l1⟩
  · rcases hbc with h2 | ⟨e2, l2⟩
    · exact Or.inl (h1.trans h2)
    · exact Or.inl (e2 ▸ h1)
  · rcases hbc with h2 | ⟨e2, l2⟩
    · exact Or.inl (e1 ▸ h2)
    · exact Or.inr ⟨e1.trans e2, l1.trans l2⟩

/-- The rows of an extracted frame falling in the `groupby` group keyed by
`(elapsed, currency, league)`. -/
def keyRows (rows : List ExtractedRow) (t : Int) (c l : String) :
    List ExtractedRow :=
  rows.filter fun r => r.elapsed == t && r.currency == c && r.league == l

/-- `group_df` (DumpProcessing.py lines 72-82):
`df.groupby(["Date","Currency","League"]).sum().unstack(level=0).T`.
Groups by `(Date, Currency, League)` summing `Value` within each group, then
pivots so elapsed time is the row axis and `(Currency, League)` the column
axis; `groupby` sorts the keys, and a `(currency, league)` pair absent at some
elapsed time gets a `NaN` hole from `unstack`. -/
def group_df (rows : List ExtractedRow) : Table :=
  { rowKeys := List.insertionSort (· ≤ ·) (rows.map (·.elapsed)).dedup
    colKeys := List.insertionSort colLe
      (rows.map fun r => (r.currency, r.league)).dedup
    cell := fun t k =>
      if keyRows rows t k.1 k.2 = [] then none
      else some ((keyRows rows t k.1 k.2).map (·.value)).sum }

/-- Extracted rows with a duplicate `(elapsed, currency, league)` key, for the
C6 witness. -/
def wDupRows : List ExtractedRow :=
  [⟨"L", 0, "Orb", 2⟩, ⟨"L", 0, "Orb", 3⟩, ⟨"L", 1, "Alt", 7⟩]

/-- The canonical currencies absent from a league table's columns:
`[c for c in latest_currency_list if c not in league_currency_list]`, with
duplicates collapsed (assigning the same new column twice creates it once). -/
def missingCurrencies (df : Table) (latest : List String) : List String :=
  (latest.filter fun c => decide (c ∉ df.colKeys.map Prod.fst)).dedup

/-- The league component of the first column, `df.columns[0][1]`; total with a
default that is only reached when there are no columns (where the source
raises instead, see `fill_league_currency`). -/
def firstColLeague (df : Table) : String :=
  ((df.colKeys.head?).map Prod.snd).getD ""

/-- The columns `(c, df.columns[0][1])` added by the fill loop, one per
missing canonical currency. -/
def addedCols (df : Table) (latest : List String) : List (String × String) :=
  (missingCurrencies df latest).map fun c => (c, firstColLeague df)

/-- `fill_league_currency` (DumpProcessing.py lines 123-138): for each entry
of `latest_currency_list` absent from the table's currency components, sets
`df[currency, df.columns[0][1]] = np.nan` (an all-sentinel column; the
subscript `df.columns[0][1]` raises an `IndexError` when the table has no
columns, which only happens when at least one currency is missing), then
`df.sort_index(axis=1)`. -/
def fill_league_currency (df : Table) (latest : List String) :
    Except String Table :=
  if missingCurrencies df latest = [] then
    .ok { df with colKeys := List.insertionSort colLe df.colKeys }
  else if df.colKeys = [] then
    .error "IndexError: index 0 is out of bounds"
  else
    .ok { rowKeys := df.rowKeys
          colKeys := List.insertionSort colLe (df.colKeys ++ addedCols df latest)
          cell := fun t k => if k ∈ addedCols df latest then none else df.cell t k }

/-- A concrete non-empty grouped league table, for the C7 witness. -/
def wTable : Table :=
  { rowKeys := [0, 1]
    colKeys := [("B", "L")]
    cell := fun t k => if (t = 0 ∨ t = 1) ∧ k = ("B", "L") then some 7 else none }

/-- `df.join(league_grp)` (DumpProcessing.py line 159): a pandas
`DataFrame.join` with the default `how="left"`.  The result keeps exactly the
left table's row labels in their order; a row label absent from the right
table fills the right table's columns with `NaN`; columns are the left
table's followed by the right table's. -/
def joinTables (a b : Table) : Table :=
  { rowKeys := a.rowKeys
    colKeys := a.colKeys ++ b.colKeys
    cell := fun t k =>
      if k ∈ a.colKeys then a.cell t k
      else if t ∈ b.rowKeys then b.cell t k else none }

/-- One league's pipeline inside `get_data`: extract, group, align
(DumpProcessing.py lines 152-154 and 156-158). -/
def processFile (latest : List String) (rows : List RawRow) :
    Except String Table :=
  (extract_df rows).bind fun e => fill_league_currency (group_df e) latest

/-- The loop of `get_data` (DumpProcessing.py lines 155-159): left-join each
remaining league's aligned table onto the accumulator. -/
def joinAll (latest : List String) (acc : Table) :
    List (List RawRow) → Except String Table
  | [] => .ok acc
  | f :: fs => (processFile latest f).bind fun tb =>
      joinAll latest (joinTables acc tb) fs

/-- `get_data` up to (but excluding) its final `reset_index`
(DumpProcessing.py lines 151-159): process `file_paths[0]` (raising an
`IndexError` on an empty catalog), then fold the remaining files in with
joins.  Files are given by their already-read row lists. -/
def combined_df (latest : List String) (files : List (List RawRow)) :
    Except String Table :=
  match files with
  | [] => .error "IndexError: list index out of range"
  | f :: rest => (processFile latest f).bind fun t0 => joinAll latest t0 rest

/-- `df.reset_index(drop=True)` (DumpProcessing.py line 160): relabel the
rows with a dense `0..n-1` integer sequence, discarding the elapsed-time
labels. -/
def resetIndex (t : Table) : Table :=
  { rowKeys := (List.range t.rowKeys.length).map Int.ofNat
    colKeys := t.colKeys
    cell := fun i k =>
      match t.rowKeys.get? i.toNat with
      | some el => t.cell el k
      | none => none }

/-- `get_data` (DumpProcessing.py lines 140-161). -/
def get_data (latest : List String) (files : List (List RawRow)) :
    Except String Table :=
  (combined_df latest files).map resetIndex

/-- Leagues of the two-league counterexample for C1: the first (newest) file
has a single snapshot day, the second file has two. -/
def cexFileB : List RawRow := [⟨"B", 10, "Orb", "Chaos Orb", 5⟩]

/-- Second file of the C1 counterexample: league "A" with elapsed times
`{0, 1}`. -/
def cexFileA : List RawRow :=
  [⟨"A", 20, "Orb", "Chaos Orb", 6⟩, ⟨"A", 21, "Orb", "Chaos Orb", 7⟩]

/-- First-row data of an unsorted dump used to refute claim C2. -/
def unsortedDump : List RawRow :=
  [⟨"L", 5, "Orb", "Chaos Orb", 1⟩, ⟨"L", 3, "Orb", "Chaos Orb", 1⟩]

/-- First row of the file used as the C2 witness. -/
def wRow0 : RawRow := ⟨"L", 1, "Orb", "Chaos Orb", 2⟩

/-- Remaining rows of the file used as the C2 witness. -/
def wRest : List RawRow :=
  [⟨"L", 2, "Alt", "Chaos Orb", 3⟩, ⟨"L", 3, "Mir", "Divine Orb", 4⟩]

/-- Extraction output of the C2 witness file. -/
def wOut : List ExtractedRow := [⟨"L", 0, "Orb", 2⟩, ⟨"L", 1, "Alt", 3⟩]

/-- A one-row dump with no base-currency row, for the C4 witness. -/
def wNoBase : List RawRow := [⟨"B", 4, "Scour", "Vaal Orb", 1⟩]

/-- First row (non-base-currency) of the C10 witness file. -/
def wRowX : RawRow := ⟨"L", 1, "Orb", "Divine Orb", 2⟩

/-- Later rows of the C10 witness file; they are base-currency priced and
could otherwise be returned. -/
def wRestX : List RawRow := [⟨"L", 2, "Alt", "Chaos Orb", 3⟩]

/-- Split a list of characters at every occurrence of `sep`, with the chunk
read so far accumulated in `acc`; mirrors Python's `str.split(sep)` (an empty
string yields `[""]`, adjacent separators yield empty segments). -/
def splitCharAux (sep : Char) : List Char → List Char → List String
  | [], acc => [String.mk acc.reverse]
  | c :: cs, acc =>
    if c = sep then String.mk acc.reverse :: splitCharAux sep cs []
    else splitCharAux sep cs (c :: acc)

/-- Python's `s.split(sep)` for a one-character separator. -/
def splitOnChar (sep : Char) (s : String) : List String :=
  splitCharAux sep s.data []

/-- `file.split(".")` as used in `get_file_df` (DumpProcessing.py line 44). -/
def splitDots (s : String) : List String := splitOnChar '.' s

/-- Digits-to-number accumulator for date segments. -/
def digitsToNatAux : List Char → Nat → Option Nat
  | [], acc => some acc
  | c :: cs, acc =>
    if c.isDigit then digitsToNatAux cs (acc * 10 + (c.toNat - '0'.toNat))
    else none

/-- A non-empty all-digit string as a number, `none` otherwise. -/
def segToNat (s : String) : Option Nat :=
  match s.data with
  | [] => none
  | l => digitsToNatAux l 0

/-- `pd.to_datetime` on one filename date segment, modelled on its ISO
`YYYY-MM-DD` input format (the repository's dump-file naming contract):
parsed into the order-preserving code `y * 10000 + m * 100 + d`; anything
that is not three dash-separated digit groups fails (raises). -/
def parseDate (s : String) : Option Int :=
  match splitOnChar '-' s with
  | [y, m, d] =>
    match segToNat y, segToNat m, segToNat d with
    | some yn, some mn, some dn => some (Int.ofNat (yn * 10000 + mn * 100 + dn))
    | _, _, _ => none
  | _ => none

/-- One row of the catalog dataframe built by `get_file_df`: league name
(the filename's first `.`-segment), parsed snapshot date, file path. -/
structure FileRecord where
  league : String
  date : Int
  file : String
deriving DecidableEq

/-- Descending-date comparison used by
`df.sort_values(by=["Date"], ascending=False)`. -/
def dateGe (a b : FileRecord) : Prop := b.date ≤ a.date

instance : DecidableRel dateGe := fun a b => by
  unfold dateGe
  infer_instance

instance : IsTotal FileRecord dateGe :=
  ⟨fun a b => le_total b.date a.date⟩

instance : IsTrans FileRecord dateGe :=
  ⟨fun _ _ _ hab hbc => le_trans hbc hab⟩

/-- Insertion into the Python dict comprehension
`{file.split(".")[0]: {"Date": ..., "File": ...} for file in file_list}`
(DumpProcessing.py lines 43-46): a repeated key keeps its original position
but its value is overwritten; a new key is appended.  Entries are
`(league, (dateSegment, file))`. -/
def dictInsert (d : List (String × String × String)) (k : String)
    (v : String × String) : List (String × String × String) :=
  if d.any fun p => p.1 == k then
    d.map fun p => if p.1 == k then (k, v) else p
  else d ++ [(k, v)]

/-- The dict comprehension of `get_file_df`, folded over the file list; a
filename with fewer than two `.`-segments raises an `IndexError` at
`file.split(".")[1]`. -/
def buildFileDict : List String → List (String × String × String) →
    Except String (List (String × String × String))
  | [], d => .ok d
  | f :: fs, d =>
    match splitDots f with
    | k :: dt :: _ => buildFileDict fs (dictInsert d k (dt, f))
    | _ => .error "IndexError: list index out of range"

/-- Turn one dict entry into a catalog record,
applying `pd.to_datetime` to the date segment. -/
def parseRecord (e : String × String × String) : Except String FileRecord :=
  match parseDate e.2.1 with
  | some d => .ok ⟨e.1, d, e.2.2⟩
  | none => .error "DateParseError"

/-- Fallible map over a list, failing on the first failing element. -/
def mapExcept {α β : Type} (f : α → Except String β) :
    List α → Except String (List β)
  | [] => .ok []
  | a :: l => (f a).bind fun b => (mapExcept f l).map fun bs => b :: bs

/-- `get_file_df` (DumpProcessing.py lines 34-53): build the filename dict,
parse the date segments, and sort the records by date descending
(`sort_values` with pandas' default unstable quicksort; this embedding uses
an insertion sort, which agrees with it on the date ordering, the only
property relied upon). -/
def get_file_df (files : List String) : Except String (List FileRecord) :=
  (buildFileDict files []).bind fun d =>
    (mapExcept parseRecord d).map fun recs => List.insertionSort dateGe recs

/-- `self.league_names = list(self.df_files["League"])`
(DumpProcessing.py line 14): the league column of the catalog, read in the
catalog's (date-sorted) row order. -/
def league_names (files : List String) : Except String (List String) :=
  (get_file_df files).map fun recs => recs.map (·.league)

/-- The rows of the catalog carrying the maximum snapshot date,
`df[df["Date"] == max_date]` (DumpProcessing.py lines 106-107); empty on an
empty catalog (the pandas maximum is then `NaT`, which no row equals). -/
def latestCandidates (recs : List FileRecord) : List FileRecord :=
  match (recs.map (·.date)).max? with
  | none => []
  | some m => recs.filter fun r => r.date == m

/-- `get_latest_league_data` (DumpProcessing.py lines 97-110): destructure
`[latest_league_file_dir] = df["File"].values` over the maximum-date rows —
which raises a `ValueError` unless exactly one row remains — and extract that
file.  `read` models the filesystem, mapping a path to the rows of the file
stored there. -/
def get_latest_league_data (read : String → List RawRow)
    (recs : List FileRecord) : Except String (List ExtractedRow) :=
  match latestCandidates recs with
  | [r] => extract_df (read r.file)
  | _ => .error "ValueError: not enough values to unpack"

/-- `get_currency_list` (DumpProcessing.py lines 112-121):
`list(df["Currency"].unique())`, keeping first appearances. -/
def get_currency_list (rows : List ExtractedRow) : List String :=
  (rows.map (·.currency)).dedup

/-- `get_latest_currency_list` (DumpProcessing.py lines 84-95): currencies of
the latest league's extraction, sorted ascending. -/
def get_latest_currency_list (read : String → List RawRow)
    (recs : List FileRecord) : Except String (List String) :=
  (get_latest_league_data read recs).map fun rows =>
    List.insertionSort (· ≤ ·) (get_currency_list rows)

/-- The catalog records produced from the C3 witness file list. -/
def wCat3 : List FileRecord :=
  [⟨"A", 20200104, "A.2020-01-04.csv"⟩, ⟨"B", 20200103, "B.2020-01-03.csv"⟩]

/-- The file list of the C8 counterexample, in discovery order: the older
league's file is found first. -/
def discoveredFiles : List String :=
  ["Old.2020-01-01.currency.csv", "New.2021-01-01.currency.csv"]

/-- The catalog records produced from `discoveredFiles`. -/
def wCat8 : List FileRecord :=
  [⟨"New", 20210101, "New.2021-01-01.currency.csv"⟩,
   ⟨"Old", 20200101, "Old.2020-01-01.currency.csv"⟩]

/-- Filesystem of the C5 witness: path `"b.csv"` holds one base-currency
row. -/
def wRead : String → List RawRow := fun p =>
  if p = "b.csv" then [⟨"B", 7, "Orb", "Chaos Orb", 3⟩] else []

/-- A catalog whose maximum date is shared by two records. -/
def wCatTie : List FileRecord := [⟨"A", 5, "a.csv"⟩, ⟨"B", 5, "b.csv"⟩]

/-- A catalog with a unique maximum date (on record "B"). -/
def wCatUnique : List FileRecord := [⟨"A", 4, "a.csv"⟩, ⟨"B", 7, "b.csv"⟩]

/-- C6: a group holding exactly two rows with identical
`(elapsedTime, currency, league)` keys yields the cell `v1 + v2` (duplicates
are summed, never overwritten), and a singleton group keeps its value. -/
theorem C6_thm (rows : List ExtractedRow) (t : Int) (c l : String) :
    (∀ r1 r2 : ExtractedRow, keyRows rows t c l = [r1, r2] →
      (group_df rows).cell t (c, l) = some (r1.value + r2.value)) ∧
    (∀ r : ExtractedRow, keyRows rows t c l = [r] →
      (group_df rows).cell t (c, l) = some r.value) := by
  constructor
  · intro r1 r2 hk
    simp [group_df, hk]
  · intro r hk
    simp [group_df, hk]

/-- C6 witness: on concrete rows, the duplicated key sums to `2 + 3` and the
singleton key keeps its value. -/
theorem C6_witness :
    (group_df wDupRows).cell 0 ("Orb", "L") = some (2 + 3) ∧
    (group_df wDupRows).cell 1 ("Alt", "L") = some 7 :=
  ⟨(C6_thm wDupRows 0 "Orb" "L").1 ⟨"L", 0, "Orb", 2⟩ ⟨"L", 0, "Orb", 3⟩ (by decide),
   (C6_thm wDupRows 1 "Alt" "L").2 ⟨"L", 1, "Alt", 7⟩ (by decide)⟩

lemma mem_missingCurrencies (df : Table) (latest : List String) (c : String) :
    c ∈ missingCurrencies df latest ↔
      c ∈ latest ∧ c ∉ df.colKeys.map Prod.fst := by
  simp [missingCurrencies, List.mem_dedup, List.mem_filter]

lemma mem_insertionSort_col (l : List (String × String)) (k : String × String) :
    k ∈ List.insertionSort colLe l ↔ k ∈ l :=
  (List.perm_insertionSort colLe l).mem_iff

lemma mem_map_fst_insertionSort (l : List (String × String)) (c : String) :
    c ∈ (List.insertionSort colLe l).map Prod.fst ↔ c ∈ l.map Prod.fst :=
  ((List.perm_insertionSort colLe l).map Prod.fst).mem_iff

lemma sorted_fst_insertionSort (l : List (String × String)) :
    List.Sorted (fun a b : String × String => a.1 ≤ b.1)
      (List.insertionSort colLe l) := by
  have h := List.sorted_insertionSort colLe l
  refine h.imp ?_
  intro a b hab
  rcases hab with h1 | ⟨h1, _⟩
  · exact le_of_lt h1
  · exact le_of_eq h1

lemma map_fst_addedCols (df : Table) (latest : List String) :
    (addedCols df latest).map Prod.fst = missingCurrencies df latest := by
  unfold addedCols
  rw [List.map_map]
  exact List.map_id _

/-- C7: aligning a non-empty grouped league table against a canonical currency
list succeeds and returns a table whose columns include every canonical
currency, retain every already-present column, and are sorted by currency
name; rows and existing cells are unchanged, and every column added for a
missing canonical currency is all-sentinel. -/
theorem C7_thm (df : Table) (latest : List String) (hne : df.colKeys ≠ []) :
    isOkE (fill_league_currency df latest) = true ∧
    ∀ t, fill_league_currency df latest = .ok t →
      (∀ c ∈ latest, c ∈ t.colKeys.map Prod.fst) ∧
      (∀ k ∈ df.colKeys, k ∈ t.colKeys) ∧
      List.Sorted (fun a b : String × String => a.1 ≤ b.1) t.colKeys ∧
      t.rowKeys = df.rowKeys ∧
      (∀ ti k, k ∈ df.colKeys → t.cell ti k = df.cell ti k) ∧
      (∀ ti c l, c ∈ latest → c ∉ df.colKeys.map Prod.fst →
        (c, l) ∈ t.colKeys → t.cell ti (c, l) = none) := by
  by_cases hm : missingCurrencies df latest = []
  · have hnomiss : ∀ c ∈ latest, c ∈ df.colKeys.map Prod.fst := by
      intro c hc
      by_contra hcn
      have : c ∈ missingCurrencies df latest :=
        (mem_missingCurrencies _ _ _).2 ⟨hc, hcn⟩
      rw [hm] at this
      exact absurd this (List.not_mem_nil c)
    unfold fill_league_currency
    rw [if_pos hm]
    refine ⟨rfl, ?_⟩
    intro t ht
    injection ht with ht
    subst ht
    refine ⟨?_, ?_, sorted_fst_insertionSort _, rfl, fun _ _ _ => rfl, ?_⟩
    · intro c hc
      exact (mem_map_fst_insertionSort _ _).2 (hnomiss c hc)
    · intro k hk
      exact (mem_insertionSort_col _ _).2 hk
    · intro ti c l hc hcn _
      exact absurd (hnomiss c hc) hcn
  · unfold fill_league_currency
    rw [if_neg hm, if_neg hne]
    refine ⟨rfl, ?_⟩
    intro t ht
    injection ht with ht
    subst ht
    have hnotadd : ∀ k ∈ df.colKeys, k ∉ addedCols df latest := by
      intro k hk hka
      simp only [addedCols, List.mem_map] at hka
      obtain ⟨c, hc, hkc⟩ := hka
      have hmem := (mem_missingCurrencies df latest c).1 hc
      exact hmem.2 (List.mem_map.2 ⟨k, hk, by rw [← hkc]⟩)
    refine ⟨?_, ?_, sorted_fst_insertionSort _, rfl, ?_, ?_⟩
    · intro c hc
      rw [mem_map_fst_insertionSort, List.map_append, List.mem_append,
        map_fst_addedCols]
      by_cases hcn : c ∈ df.colKeys.map Prod.fst
      · exact Or.inl hcn
      · exact Or.inr ((mem_missingCurrencies _ _ _).2 ⟨hc, hcn⟩)
    · intro k hk
      exact (mem_insertionSort_col _ _).2 (List.mem_append.2 (Or.inl hk))
    · intro ti k hk
      simp only []
      rw [if_neg (hnotadd k hk)]
    · intro ti c l hc hcn hmem
      rw [mem_insertionSort_col, List.mem_append] at hmem
      rcases hmem with hmem | hmem
      · exact absurd (List.mem_map.2 ⟨(c, l), hmem, rfl⟩) hcn
      · simp only []
        rw [if_pos hmem]

/-- C7 witness: aligning the concrete table against canonical currencies
`["A", "B"]` succeeds. -/
theorem C7_witness : isOkE (fill_league_currency wTable ["A", "B"]) = true :=
  (C7_thm wTable ["A", "B"] (by decide)).1

lemma joinAll_rowKeys (latest : List String) :
    ∀ (fs : List (List RawRow)) (acc t : Table),
      joinAll latest acc fs = .ok t → t.rowKeys = acc.rowKeys := by
  intro fs
  induction fs with
  | nil =>
    intro acc t h
    injection h with h
    rw [← h]
  | cons f fs ih =>
    intro acc t h
    simp only [joinAll] at h
    cases hp : processFile latest f with
    | error e => rw [hp] at h; exact absurd h (by simp [Except.bind])
    | ok tb =>
      rw [hp] at h
      exact ih (joinTables acc tb) t h

/-- C1 counterexample: with canonical currencies `["Orb"]`, league "A" alone
has elapsed-time axis `[0, 1]`, but the combined table's row axis is `[0]`:
the join is not an outer join on the elapsed-time axis — elapsed time `1`,
present only in the second league, is dropped rather than kept as a row of
sentinels. -/
theorem C1_cex :
    (combined_df ["Orb"] [cexFileB, cexFileA]).map Table.rowKeys = .ok [0] ∧
    (processFile ["Orb"] cexFileA).map Table.rowKeys = .ok [0, 1] := by decide

/-- C1 (amended): `get_data` left-joins successive leagues, so the combined
table's row axis equals the first (newest-dated) league's elapsed-time axis,
and in each join step a row label absent from the right table yields the
missing-value sentinel in every column that is not a left-table column. -/
theorem C1_thm (latest : List String) (f : List RawRow)
    (rest : List (List RawRow)) (rks : List Int)
    (h : (combined_df latest (f :: rest)).map Table.rowKeys = .ok rks) :
    (processFile latest f).map Table.rowKeys = .ok rks ∧
    ∀ (a b : Table) (ti : Int) (k : String × String),
      ti ∉ b.rowKeys → k ∉ a.colKeys → (joinTables a b).cell ti k = none := by
  constructor
  · simp only [combined_df] at h
    cases hp : processFile latest f with
    | error e => rw [hp] at h; exact absurd h (by simp [Except.bind, Except.map])
    | ok t0 =>
      rw [hp] at h
      simp only [Except.bind] at h
      cases hj : joinAll latest t0 rest with
      | error e => rw [hj] at h; exact absurd h (by simp [Except.map])
      | ok t =>
        rw [hj] at h
        simp only [Except.map] at h
        injection h with h
        simp only [Except.map]
        rw [← h, joinAll_rowKeys latest rest t0 t hj]
  · intro a b ti k hti hk
    simp only [joinTables]
    rw [if_neg hk, if_neg hti]

/-- C1 witness: the first league of the counterexample pair alone already has
row axis `[0]`, matching the combined row axis. -/
theorem C1_witness :
    (processFile ["Orb"] cexFileB).map Table.rowKeys = .ok [0] :=
  (C1_thm ["Orb"] cexFileB [cexFileA] [0] (by decide)).1

/-- C2 counterexample: a dump whose first row is dated later than its second
row extracts successfully, but the elapsed times are `[0, -2]`, whose minimum
is `-2`, not `0` — the invariant does not hold "regardless of the order of
rows in the source file". -/
theorem C2_cex :
    (extract_df unsortedDump).map (fun out => out.map (·.elapsed)) =
      .ok [0, -2] ∧ (-2 : Int) < 0 := by decide

/-- C2 (amended): the minimum elapsed time of a successful extraction is zero
provided the first row of the file (the anchor `df.loc[0]`) carries a date
that is less than or equal to the date of every base-currency row; in general
`elapsed = date - firstRowDate`, which can be negative on unsorted files. -/
theorem C2_thm (r0 : RawRow) (rest : List RawRow) (out : List ExtractedRow)
    (h : extract_df (r0 :: rest) = .ok out)
    (hfirst : ∀ r ∈ rest, r.pay = baseCurrency → r0.date ≤ r.date) :
    0 ∈ out.map (·.elapsed) ∧ ∀ e ∈ out.map (·.elapsed), 0 ≤ e := by
  simp only [extract_df] at h
  by_cases hp : r0.pay = baseCurrency
  · rw [if_pos hp] at h
    injection h with h
    subst h
    constructor
    · simp only [List.map_map, List.mem_map, Function.comp]
      exact ⟨r0, by simp [List.mem_filter, hp], by simp⟩
    · intro e he
      simp only [List.map_map, List.mem_map, Function.comp] at he
      obtain ⟨r, hr, he⟩ := he
      simp only [List.mem_filter, beq_iff_eq, List.mem_cons] at hr
      obtain ⟨hr1 | hr1, hr2⟩ := hr
      · subst hr1; omega
      · have := hfirst r hr1 hr2; omega
  · rw [if_neg hp] at h
    exact absurd h (by simp)

/-- C2 witness: on a date-sorted concrete file the amended invariant holds. -/
theorem C2_witness :
    0 ∈ wOut.map (·.elapsed) ∧ ∀ e ∈ wOut.map (·.elapsed), 0 ≤ e :=
  C2_thm wRow0 wRest wOut (by decide) (by decide)

/-- C4 counterexample: a dump that contains rows but none priced in the base
currency makes `extract_df` raise (the `df.loc[0]` anchor lookup fails after
the filter removed every row); it does not return an empty table. -/
theorem C4_cex :
    extract_df
      [⟨"A", 0, "Fusing", "Divine Orb", 1⟩, ⟨"A", 1, "Chromatic", "Exalted Orb", 2⟩] =
      .error "KeyError: 0" := by decide

/-- C4 (amended): for every dump file that contains rows but none priced in
the base currency, extraction raises a `KeyError`; it never returns an empty
per-league table, so the league aborts the whole build instead of silently
contributing no columns. -/
theorem C4_thm (rows : List RawRow) (hne : rows ≠ [])
    (h : ∀ r ∈ rows, r.pay ≠ baseCurrency) :
    extract_df rows = .error "KeyError: 0" := by
  cases rows with
  | nil => exact absurd rfl hne
  | cons r0 rest => simp [extract_df, h r0 (List.mem_cons_self r0 rest)]

/-- C4 witness: the amended claim evaluated on a concrete no-base-row dump. -/
theorem C4_witness : extract_df wNoBase = .error "KeyError: 0" :=
  C4_thm wNoBase (by decide) (by decide)

/-- C10: whenever the first row (original label 0) of a dump is not priced in
the base currency, extraction raises — the anchor `df.loc[0]` is looked up
after the filter has removed label 0 — even when later rows are base-currency
priced. -/
theorem C10_thm (r0 : RawRow) (rest : List RawRow) (h : r0.pay ≠ baseCurrency) :
    extract_df (r0 :: rest) = .error "KeyError: 0" := by
  simp [extract_df, h]

/-- C10 witness: a concrete file whose first row is not base-currency priced
but whose second row is; extraction still raises. -/
theorem C10_witness : extract_df (wRowX :: wRestX) = .error "KeyError: 0" :=
  C10_thm wRowX wRestX (by decide)

lemma keysNodup_dictInsert (d : List (String × String × String)) (k : String)
    (v : String × String) (h : (d.map Prod.fst).Nodup) :
    ((dictInsert d k v).map Prod.fst).Nodup := by
  unfold dictInsert
  by_cases hany : (d.any fun p => p.1 == k) = true
  · rw [if_pos hany]
    have heq : (d.map fun p => if p.1 == k then (k, v) else p).map Prod.fst =
        d.map Prod.fst := by
      rw [List.map_map]
      apply List.map_congr_left
      intro p _
      by_cases hpk : (p.1 == k) = true
      · simp only [Function.comp, hpk, if_pos]
        exact (beq_iff_eq.1 hpk).symm
      · simp only [Function.comp, hpk]
        rw [if_neg (by simp [hpk])]
    rw [heq]
    exact h
  · rw [if_neg hany]
    rw [List.map_append]
    refine List.Nodup.append h (List.nodup_singleton k) ?_
    intro a ha hak
    simp only [List.map_cons, List.map_nil, List.mem_singleton] at hak
    subst hak
    obtain ⟨p, hp, hpk⟩ := List.mem_map.1 ha
    exact hany (List.any_eq_true.2 ⟨p, hp, by rw [hpk]; exact beq_self_eq_true a⟩)

lemma buildFileDict_keysNodup :
    ∀ (files : List String) (d res : List (String × String × String)),
      (d.map Prod.fst).Nodup → buildFileDict files d = .ok res →
      (res.map Prod.fst).Nodup := by
  intro files
  induction files with
  | nil =>
    intro d res hd h
    injection h with h
    rw [← h]
    exact hd
  | cons f fs ih =>
    intro d res hd h
    simp only [buildFileDict] at h
    cases hsp : splitDots f with
    | nil => rw [hsp] at h; exact Except.noConfusion h
    | cons a tl =>
      cases tl with
      | nil => rw [hsp] at h; exact Except.noConfusion h
      | cons b r =>
        rw [hsp] at h
        exact ih _ res (keysNodup_dictInsert d a (b, f) hd) h

lemma mapExcept_leagues :
    ∀ (d : List (String × String × String)) (recs : List FileRecord),
      mapExcept parseRecord d = .ok recs →
      recs.map (·.league) = d.map Prod.fst := by
  intro d
  induction d with
  | nil =>
    intro recs h
    injection h with h
    rw [← h]
    rfl
  | cons e es ih =>
    intro recs h
    simp only [mapExcept] at h
    cases hp : parseRecord e with
    | error s => rw [hp] at h; exact Except.noConfusion h
    | ok r =>
      rw [hp] at h
      simp only [Except.bind] at h
      cases hm : mapExcept parseRecord es with
      | error s => rw [hm] at h; exact Except.noConfusion h
      | ok rs =>
        rw [hm] at h
        simp only [Except.map] at h
        injection h with h
        rw [← h]
        simp only [List.map_cons]
        rw [ih rs hm]
        have hr : r.league = e.1 := by
          unfold parseRecord at hp
          cases hd : parseDate e.2.1 with
          | none => rw [hd] at hp; exact Except.noConfusion hp
          | some dt =>
            rw [hd] at hp
            injection hp with hp
            rw [← hp]
        rw [hr]

/-- C3 counterexample: two files sharing the league name "A" collapse to a
single catalog record (the dict comprehension is keyed by league name, so the
later file overwrites the earlier one); the claim promised two distinct
records. -/
theorem C3_cex :
    get_file_df ["A.2020-01-01.csv", "A.2020-01-02.csv"] =
      .ok [⟨"A", 20200102, "A.2020-01-02.csv"⟩] := by decide

/-- C3 (amended): the catalog holds at most one record per distinct league
name — its league names are pairwise distinct — because the dict
comprehension deduplicates by the filename's first `.`-segment, the last file
with a given league name winning. -/
theorem C3_thm (files : List String) (recs : List FileRecord)
    (h : get_file_df files = .ok recs) :
    (recs.map (·.league)).Nodup := by
  unfold get_file_df at h
  cases hb : buildFileDict files [] with
  | error e => rw [hb] at h; exact Except.noConfusion h
  | ok d =>
    rw [hb] at h
    simp only [Except.bind] at h
    cases hm : mapExcept parseRecord d with
    | error e => rw [hm] at h; exact Except.noConfusion h
    | ok recs0 =>
      rw [hm] at h
      simp only [Except.map] at h
      injection h with h
      have hperm : ((List.insertionSort dateGe recs0).map (·.league)).Perm
          (recs0.map (·.league)) :=
        (List.perm_insertionSort dateGe recs0).map _
      have hnodup0 : (recs0.map (·.league)).Nodup := by
        rw [mapExcept_leagues d recs0 hm]
        exact buildFileDict_keysNodup files [] d (by simp) hb
      rw [← h]
      exact hperm.nodup_iff.2 hnodup0

/-- C3 witness: a concrete two-league catalog has pairwise-distinct league
names. -/
theorem C3_witness : (wCat3.map (·.league)).Nodup :=
  C3_thm ["B.2020-01-03.csv", "A.2020-01-04.csv"] wCat3 (by decide)

/-- C8 counterexample: the league-name list handed to the renderer is
`["New", "Old"]` — date-descending catalog order — not the discovery order
`["Old", "New"]` the claim asserts. -/
theorem C8_cex :
    league_names discoveredFiles = .ok ["New", "Old"] ∧
    league_names discoveredFiles ≠ .ok ["Old", "New"] := by decide

/-- C8 (amended): the league-name list follows the catalog's sorted order —
records sorted by snapshot date descending — reading off the league column in
that order. -/
theorem C8_thm (files : List String) (recs : List FileRecord)
    (h : get_file_df files = .ok recs) :
    List.Sorted dateGe recs ∧ league_names files = .ok (recs.map (·.league)) := by
  constructor
  · unfold get_file_df at h
    cases hb : buildFileDict files [] with
    | error e => rw [hb] at h; exact Except.noConfusion h
    | ok d =>
      rw [hb] at h
      simp only [Except.bind] at h
      cases hm : mapExcept parseRecord d with
      | error e => rw [hm] at h; exact Except.noConfusion h
      | ok recs0 =>
        rw [hm] at h
        simp only [Except.map] at h
        injection h with h
        rw [← h]
        exact List.sorted_insertionSort dateGe recs0
  · unfold league_names
    rw [h]
    rfl

/-- C8 witness: the concrete catalog is date-descending sorted and the league
names are read off in that order. -/
theorem C8_witness :
    List.Sorted dateGe wCat8 ∧
    league_names discoveredFiles = .ok (wCat8.map (·.league)) :=
  C8_thm discoveredFiles wCat8 (by decide)

/-- C5: when exactly one catalog record carries the maximum snapshot date,
`get_latest_league_data` returns that record's extracted data; when two or
more records share the maximum date, it raises (the single-element unpacking
`[latest_league_file_dir] = df["File"].values` fails) rather than picking
one. -/
theorem C5_thm (read : String → List RawRow) (recs : List FileRecord)
    (m : Int) (hm : (recs.map (·.date)).max? = some m) :
    (∀ r : FileRecord, (recs.filter fun x => x.date == m) = [r] →
      get_latest_league_data read recs = extract_df (read r.file)) ∧
    (2 ≤ (recs.filter fun x => x.date == m).length →
      isOkE (get_latest_league_data read recs) = false) := by
  have hc : latestCandidates recs = recs.filter fun x => x.date == m := by
    unfold latestCandidates
    rw [hm]
  constructor
  · intro r hf
    unfold get_latest_league_data
    rw [hc, hf]
  · intro hlen
    unfold get_latest_league_data
    rw [hc]
    cases hf : recs.filter fun x => x.date == m with
    | nil => rfl
    | cons r1 tl =>
      cases tl with
      | nil => rw [hf] at hlen; simp at hlen
      | cons r2 tl2 => rfl

/-- C5 witness: the tied catalog makes selection raise; the unique-maximum
catalog returns the extraction of the newest record's file. -/
theorem C5_witness :
    isOkE (get_latest_league_data wRead wCatTie) = false ∧
    get_latest_league_data wRead wCatUnique = extract_df (wRead "b.csv") :=
  ⟨(C5_thm wRead wCatTie 5 (by decide)).2 (by decide),
   (C5_thm wRead wCatUnique 7 (by decide)).1 ⟨"B", 7, "b.csv"⟩ (by decide)⟩

lemma buildFileDict_error :
    ∀ (files : List String) (d : List (String × String × String)),
      (∃ f ∈ files, (splitDots f).length < 2) →
      isOkE (buildFileDict files d) = false := by
  intro files
  induction files with
  | nil =>
    intro d h
    obtain ⟨f, hf, _⟩ := h
    exact absurd hf (List.not_mem_nil f)
  | cons f fs ih =>
    intro d h
    simp only [buildFileDict]
    by_cases hf : (splitDots f).length < 2
    · cases hsp : splitDots f with
      | nil => rfl
      | cons a tl =>
        cases tl with
        | nil => rfl
        | cons b r =>
          rw [hsp] at hf
          simp only [List.length_cons] at hf
          omega
    · obtain ⟨g, hg, hgl⟩ := h
      rcases List.mem_cons.1 hg with rfl | hg2
      · exact absurd hgl hf
      · cases hsp : splitDots f with
        | nil =>
          rw [hsp] at hf
          exact absurd (by simp) hf
        | cons a tl =>
          cases tl with
          | nil =>
            rw [hsp] at hf
            exact absurd (by simp) hf
          | cons b r => exact ih (dictInsert d a (b, f)) ⟨g, hg2, hgl⟩

/-- C9: building the catalog from a file list containing a filename with
fewer than two `.`-separated segments raises (the dict comprehension's
`file.split(".")[1]` is an out-of-range index), aborting the whole catalog
build; no record with a default date is produced. -/
theorem C9_thm (files : List String)
    (h : ∃ f ∈ files, (splitDots f).length < 2) :
    isOkE (get_file_df files) = false := by
  unfold get_file_df
  cases hb : buildFileDict files [] with
  | error e => rfl
  | ok d =>
    have hfalse := buildFileDict_error files [] h
    rw [hb] at hfalse
    exact absurd hfalse (by simp [isOkE])

/-- C9 witness: a file list containing the dot-free name `"currencyonly"`
makes the catalog build fail; the spec's example `"league_only.csv"` (two
segments, whose second — `"csv"` — is not a date) also aborts the build, at
the `pd.to_datetime` step instead of the indexing step. -/
theorem C9_witness :
    isOkE (get_file_df ["currencyonly"]) = false ∧
    isOkE (get_file_df ["league_only.csv"]) = false :=
  ⟨C9_thm ["currencyonly"] (by decide), by decide⟩

end PoE
